import Mathlib

/-!
Verification of the eksctl zone-selection core (`pkg/az/az.go`) and the
label Attribute Manager's dual-path routing protocol.

The EC2 collaborator is modelled as a function from describe-request to
result; randomness (Go's `rand.Perm`, freshly seeded on each outer loop
iteration) is modelled as a stream of permutations `perms : Nat → List Nat`
indexed by iteration; the unbounded Go `for` loop is modelled with explicit
fuel, `none` standing for running out of fuel (nontermination).
-/

/-- Mirrors `ec2.Filter` (only the fields this code constructs). -/
structure EC2Filter where
  name : String
  values : List String
deriving DecidableEq, Repr

/-- Mirrors `makeFilter` in az.go. -/
def makeFilter (name value : String) : EC2Filter :=
  { name := name, values := [value] }

/-- Mirrors `ec2.AvailabilityZone` (the fields the code and tests touch). -/
structure AvailabilityZone where
  regionName : String
  state : String
  zoneName : String
  zoneId : String
deriving DecidableEq, Repr

/-- Mirrors `ec2.DescribeAvailabilityZonesInput`; a Go nil `ZoneNames` is `[]`. -/
structure DescribeAvailabilityZonesInput where
  zoneNames : List String
  filters : List EC2Filter
deriving DecidableEq, Repr

/-- Mirrors `ec2.DescribeAvailabilityZonesOutput`. -/
structure DescribeAvailabilityZonesOutput where
  availabilityZones : List AvailabilityZone
deriving DecidableEq, Repr

/-- The EC2 collaborator (`ec2iface.EC2API`), reduced to the one call this
code issues: a request/response function that may fail with an error
message. -/
abbrev EC2API := DescribeAvailabilityZonesInput → Except String DescribeAvailabilityZonesOutput

/-- Modelled from the spec: constant `api.MinRequiredAvailabilityZones`
(the `api` package is not part of this slice); spec value 2. -/
def MinRequiredAvailabilityZones : Nat := 2

/-- Modelled from the spec: constant `api.RecommendedAvailabilityZones`
(the `api` package is not part of this slice); spec value 3. -/
def RecommendedAvailabilityZones : Nat := 3

/-- Modelled from the spec: constant `api.RegionUSEast1`, the one designated
region with degraded zone capacity. -/
def RegionUSEast1 : String := "us-east-1"

/-- Modelled from the spec: constant `api.RegionCNNorth1`, the region
carrying a denylist entry. -/
def RegionCNNorth1 : String := "cn-north-1"

/-- Mirrors the package-level `zoneIDsToAvoid` map; Go map lookup on a
missing key yields the empty slice. -/
def zoneIDsToAvoid (region : String) : List String :=
  if region = RegionCNNorth1 then ["cnn1-az4"] else []

/-- Mirrors `filterZones`: keep the zone names whose zone id is not in the
denylist for the region (the Go loop-and-append is filter-then-map). -/
def filterZones (region : String) (zones : List AvailabilityZone) : List String :=
  let azsToAvoid := zoneIDsToAvoid region
  (zones.filter (fun z => !azsToAvoid.contains z.zoneId)).map (fun z => z.zoneName)

/-- Go `fmt` rendering of a `[]string` via `%v` or `%s`: elements separated
by single spaces inside square brackets. -/
def goStringSlice (l : List String) : String :=
  "[" ++ String.intercalate " " l ++ "]"

/-- The request `getAvailabilityZones` builds: region-name and
state=available filters, no explicit zone names. -/
def describeAZInput (region : String) : DescribeAvailabilityZonesInput :=
  { zoneNames := []
    filters := [makeFilter "region-name" region, makeFilter "state" "available"] }

/-- Mirrors the unexported `getAvailabilityZones`: query the source, wrap a
query failure with the region, otherwise filter the returned zones. -/
def getAvailabilityZones (ec2API : EC2API) (region : String) : Except String (List String) :=
  match ec2API (describeAZInput region) with
  | .error e => .error ("error getting availability zones for region " ++ region ++ ": " ++ e)
  | .ok output => .ok (filterZones region output.availabilityZones)

/-- Mirrors the inner `for _, rn := range rand.Perm(...)` loop body of
`randomSelectionOfZones`: append `availableZones[rn]` for each index of the
permutation, breaking as soon as the accumulator reaches `desired`. -/
def appendFromPerm (availableZones : List String) (desired : Nat) :
    List String → List Nat → List String
  | zones, [] => zones
  | zones, rn :: rest =>
    let zones' := zones ++ [availableZones.getD rn ""]
    if zones'.length = desired then zones'
    else appendFromPerm availableZones desired zones' rest

/-- Mirrors the outer `for len(zones) < desiredNumberOfAZs` loop of
`randomSelectionOfZones`; iteration `k` draws the fresh permutation
`perms k`; `none` means the fuel ran out before the loop exited. -/
def randomSelectionLoop (perms : Nat → List Nat) (availableZones : List String)
    (desired : Nat) : Nat → Nat → List String → Option (List String)
  | 0, _, _ => none
  | fuel + 1, k, zones =>
    if zones.length < desired then
      randomSelectionLoop perms availableZones desired fuel (k + 1)
        (appendFromPerm availableZones desired zones (perms k))
    else some zones

/-- Mirrors `randomSelectionOfZones`: desired count is Recommended, lowered
to MinRequired for us-east-1; then the sampling loop starting from an empty
accumulator. -/
def randomSelectionOfZones (fuel : Nat) (perms : Nat → List Nat) (region : String)
    (availableZones : List String) : Option (List String) :=
  let desiredNumberOfAZs :=
    if region = RegionUSEast1 then MinRequiredAvailabilityZones
    else RecommendedAvailabilityZones
  randomSelectionLoop perms availableZones desiredNumberOfAZs fuel 0 []

/-- Mirrors `GetAvailabilityZones`: fetch and filter, fail below MinRequired
with the counted error message, return everything below Recommended, and
randomly sample otherwise. -/
def GetAvailabilityZones (fuel : Nat) (perms : Nat → List Nat) (ec2API : EC2API)
    (region : String) : Option (Except String (List String)) :=
  match getAvailabilityZones ec2API region with
  | .error e => some (.error e)
  | .ok zones =>
    let numberOfZones := zones.length
    if numberOfZones < MinRequiredAvailabilityZones then
      some (.error ("only " ++ toString numberOfZones ++ " zones discovered " ++
        goStringSlice zones ++ ", at least " ++
        toString MinRequiredAvailabilityZones ++ " are required"))
    else if numberOfZones < RecommendedAvailabilityZones then
      some (.ok zones)
    else
      (randomSelectionOfZones fuel perms region zones).map Except.ok

/-- Mirrors `api.ClusterConfig.VPC` (only the `ID` field is read here). -/
structure ClusterVPC where
  id : String
deriving DecidableEq, Repr

/-- Mirrors `api.ClusterConfig` restricted to what `SetLocalZones` touches:
the local-zone list it may overwrite and the VPC whose ID it inspects; every
other field of the Go struct, untouched by this code, is abstracted as the
single placeholder component `remainder`. -/
structure ClusterConfig where
  localZones : List String
  vpc : ClusterVPC
  remainder : String
deriving DecidableEq, Repr

/-- The warning `SetLocalZones` logs when an existing VPC ID is set. -/
def localZonesWarning : String :=
  "ignoring localZones since existing VPC ID was specified; Local Zones are currently only supported for creating VPCs, not for creating EKS clusters. For more info, see: https://docs.aws.amazon.com/eks/latest/userguide/local-zones.html"

/-- Result of `SetLocalZones`: the (possibly updated) config standing for
the Go in-place mutation, the returned error, and—observables of the
run—the queries issued to the zone source and the warnings logged. -/
structure SetLocalZonesResult where
  spec : ClusterConfig
  err : Option String
  queries : List DescribeAvailabilityZonesInput
  warnings : List String
deriving DecidableEq, Repr

/-- The request `SetLocalZones` builds: the requested zone names plus
region-name, zone-type=local-zone and state=available filters. -/
def localZonesInput (localZones : List String) (region : String) :
    DescribeAvailabilityZonesInput :=
  { zoneNames := localZones
    filters := [makeFilter "region-name" region, makeFilter "zone-type" "local-zone",
      makeFilter "state" "available"] }

/-- Mirrors `SetLocalZones`: no-op on an empty request; warn if a VPC ID is
already set; query the zone source for the named zones; wrap a query
failure with the requested list and leave the config alone; otherwise
overwrite the local-zone field with the filtered response. -/
def SetLocalZones (spec : ClusterConfig) (ec2Api : EC2API) (region : String) :
    SetLocalZonesResult :=
  if spec.localZones.length = 0 then
    { spec := spec, err := none, queries := [], warnings := [] }
  else
    let warnings := if spec.vpc.id = "" then [] else [localZonesWarning]
    let input := localZonesInput spec.localZones region
    match ec2Api input with
    | .error e =>
      { spec := spec
        err := some ("error validating local zone(s) " ++ goStringSlice spec.localZones ++ ": " ++ e)
        queries := [input], warnings := warnings }
    | .ok output =>
      { spec := { spec with localZones := filterZones region output.availabilityZones }
        err := none, queries := [input], warnings := warnings }

/-- Go's `rand.Perm(n)` always yields a permutation of `0, ..., n-1`; a valid
permutation stream produces one for every outer-loop iteration. -/
def ValidPerms (perms : Nat → List Nat) (n : Nat) : Prop :=
  ∀ k, List.Perm (perms k) (List.range n)

/-- Modelled from the spec: the error universe seen by the Attribute
Manager (`pkg/actions/label`, whose implementation is outside this slice;
only its test is present). A failure is a control-plane validation-class
error, some other backend failure, or either of those wrapped by any number
of context-adding layers (`pkg/errors` style wrapping, as in the test). -/
inductive StackError where
  | validation (msg : String) : StackError
  | other (msg : String) : StackError
  | wrap (ctx : String) (cause : StackError) : StackError
deriving DecidableEq, Repr

/-- Strip all wrapping layers, exposing the underlying failure. -/
def unwrapError : StackError → StackError
  | .wrap _ cause => unwrapError cause
  | .validation msg => .validation msg
  | .other msg => .other msg

/-- Modelled from the spec: the ownership-detection rule — a Stack Service
failure triggers fallback precisely when the unwrapped failure is a
control-plane validation-class error. -/
def isFallbackTriggering (e : StackError) : Bool :=
  match unwrapError e with
  | .validation _ => true
  | _ => false

/-- Tag set: key/value metadata of a worker group. -/
abbrev TagSet := List (String × String)

/-- One element of an AttributeSummary: the resolved tags of a group. -/
structure Summary where
  labels : TagSet
deriving DecidableEq, Repr

/-- Outcome of one Attribute Manager operation, recording whether the
remote control plane (the fallback path) was contacted. -/
structure OpResult (α : Type) where
  result : Except StackError α
  remoteCalled : Bool
deriving Repr

/-- Modelled from the spec: `Manager.Get` — call the Stack Service
label-read; on success wrap the tags in a one-element summary; on a
fallback-triggering error, describe the group through the remote control
plane and convert its nullable-valued tag map; any other failure is
returned verbatim. `svc` and `remote` stand for the two collaborator
responses. -/
def managerGet (svc : Except StackError TagSet)
    (remote : Except StackError (List (String × Option String))) :
    OpResult (List Summary) :=
  match svc with
  | .ok labels => { result := .ok [{ labels := labels }], remoteCalled := false }
  | .error e =>
    if isFallbackTriggering e then
      match remote with
      | .ok m =>
        { result := .ok [{ labels := m.map (fun kv => (kv.1, kv.2.getD "")) }]
          remoteCalled := true }
      | .error e2 => { result := .error e2, remoteCalled := true }
    else { result := .error e, remoteCalled := false }

/-- Modelled from the spec: `Manager.Set` — Stack Service label-update
first; on a fallback-triggering error, a direct add-or-update call to the
remote control plane; any other failure is returned verbatim. -/
def managerSet (svc : Except StackError Unit) (remote : Except StackError Unit) :
    OpResult Unit :=
  match svc with
  | .ok _ => { result := .ok (), remoteCalled := false }
  | .error e =>
    if isFallbackTriggering e then
      match remote with
      | .ok _ => { result := .ok (), remoteCalled := true }
      | .error e2 => { result := .error e2, remoteCalled := true }
    else { result := .error e, remoteCalled := false }

/-- Modelled from the spec: `Manager.Unset` — symmetric to Set with a
removal payload; the routing decision is identical. -/
def managerUnset (svc : Except StackError Unit) (remote : Except StackError Unit) :
    OpResult Unit :=
  match svc with
  | .ok _ => { result := .ok (), remoteCalled := false }
  | .error e =>
    if isFallbackTriggering e then
      match remote with
      | .ok _ => { result := .ok (), remoteCalled := true }
      | .error e2 => { result := .error e2, remoteCalled := true }
    else { result := .error e, remoteCalled := false }

/-- One pass of the inner loop, started below the target, takes from the
accumulator extended by the permuted picks exactly up to the target. -/
theorem appendFromPerm_eq_take (az : List String) (d : Nat) :
    ∀ (p : List Nat) (zones : List String), zones.length < d →
      appendFromPerm az d zones p =
        (zones ++ p.map (fun i => az.getD i "")).take d := by
  intro p
  induction p with
  | nil =>
    intro zones h
    simp [appendFromPerm, List.take_of_length_le (Nat.le_of_lt h)]
  | cons rn rest ih =>
    intro zones h
    simp only [appendFromPerm, List.map_cons]
    by_cases hlen : (zones ++ [az.getD rn ""]).length = d
    · rw [if_pos hlen]
      have hsplit : zones ++ az.getD rn "" :: rest.map (fun i => az.getD i "") =
          (zones ++ [az.getD rn ""]) ++ rest.map (fun i => az.getD i "") := by
        simp
      rw [hsplit, ← hlen, List.take_left]
    · rw [if_neg hlen]
      have hlt : (zones ++ [az.getD rn ""]).length < d := by
        simp only [List.length_append, List.length_cons, List.length_nil] at hlen ⊢
        omega
      rw [ih _ hlt]
      simp

/-- A successful run of the sampling loop, started at or below the target,
ends with exactly the target number of zones. -/
theorem randomSelectionLoop_length (perms : Nat → List Nat) (az : List String)
    (d : Nat) : ∀ (fuel k : Nat) (zones zs : List String), zones.length ≤ d →
      randomSelectionLoop perms az d fuel k zones = some zs → zs.length = d := by
  intro fuel
  induction fuel with
  | zero => intro k zones zs _ h; simp [randomSelectionLoop] at h
  | succ fuel ih =>
    intro k zones zs hle h
    rw [randomSelectionLoop] at h
    by_cases hlt : zones.length < d
    · rw [if_pos hlt] at h
      refine ih (k + 1) _ zs ?_ h
      rw [appendFromPerm_eq_take az d _ _ hlt]
      simp [Nat.min_le_left]
    · rw [if_neg hlt] at h
      have hz : zones = zs := by simpa using h
      rw [← hz]
      omega

/-- Every zone a loop run ever accumulates is either already accumulated or
one of the available zones (the permutation indices being in range). -/
theorem randomSelectionLoop_mem (perms : Nat → List Nat) (az : List String)
    (d : Nat) (hperm : ∀ k i, i ∈ perms k → i < az.length) :
    ∀ (fuel k : Nat) (zones zs : List String),
      randomSelectionLoop perms az d fuel k zones = some zs →
      ∀ x ∈ zs, x ∈ zones ∨ x ∈ az := by
  have append_mem : ∀ (p : List Nat) (zones : List String) (x : String),
      (∀ i ∈ p, i < az.length) → x ∈ appendFromPerm az d zones p →
      x ∈ zones ∨ x ∈ az := by
    intro p
    induction p with
    | nil => intro zones x _ hx; exact Or.inl (by simpa [appendFromPerm] using hx)
    | cons rn rest ih =>
      intro zones x hp hx
      rw [appendFromPerm] at hx
      have hrn : az.getD rn "" ∈ az := by
        have hlt : rn < az.length := hp rn (List.mem_cons_self rn rest)
        rw [List.getD_eq_getElem _ _ hlt]
        exact List.getElem_mem hlt
      by_cases hlen : (zones ++ [az.getD rn ""]).length = d
      · rw [if_pos hlen] at hx
        rcases List.mem_append.mp hx with h | h
        · exact Or.inl h
        · exact Or.inr (by simpa [List.mem_singleton.mp h] using hrn)
      · rw [if_neg hlen] at hx
        rcases ih _ x (fun i hi => hp i (List.mem_cons_of_mem rn hi)) hx with h | h
        · rcases List.mem_append.mp h with h' | h'
          · exact Or.inl h'
          · exact Or.inr (by simpa [List.mem_singleton.mp h'] using hrn)
        · exact Or.inr h
  intro fuel
  induction fuel with
  | zero => intro k zones zs h; simp [randomSelectionLoop] at h
  | succ fuel ih =>
    intro k zones zs h x hx
    rw [randomSelectionLoop] at h
    by_cases hlt : zones.length < d
    · rw [if_pos hlt] at h
      rcases ih (k + 1) _ zs h x hx with h' | h'
      · exact append_mem (perms k) zones x (fun i hi => hperm k i hi) h'
      · exact Or.inr h'
    · rw [if_neg hlt] at h
      have hz : zones = zs := by simpa using h
      exact Or.inl (hz ▸ hx)

/-- With no available zones (so every fresh permutation is empty) and a
positive target, the loop never exits: the Go code would spin forever. -/
theorem randomSelectionLoop_none_of_empty (perms : Nat → List Nat)
    (hp : ∀ k, perms k = []) (d : Nat) (hd : 1 ≤ d) :
    ∀ (fuel k : Nat), randomSelectionLoop perms [] d fuel k [] = none := by
  intro fuel
  induction fuel with
  | zero => intro k; rfl
  | succ fuel ih =>
    intro k
    rw [randomSelectionLoop, if_pos (by simpa using hd), hp k]
    exact ih (k + 1)

/-- With at least one available zone, every iteration makes progress, so
fuel exceeding the remaining gap suffices for the loop to exit. -/
theorem randomSelectionLoop_some_of_ne_nil (perms : Nat → List Nat)
    (az : List String) (d : Nat) (haz : az ≠ [])
    (hlen : ∀ k, (perms k).length = az.length) :
    ∀ (fuel k : Nat) (zones : List String), zones.length ≤ d →
      d - zones.length < fuel →
      ∃ zs, randomSelectionLoop perms az d fuel k zones = some zs := by
  intro fuel
  induction fuel with
  | zero => intro k zones _ h; omega
  | succ fuel ih =>
    intro k zones hle hfuel
    rw [randomSelectionLoop]
    by_cases hlt : zones.length < d
    · rw [if_pos hlt]
      have haz1 : 1 ≤ az.length := by
        cases az with
        | nil => exact absurd rfl haz
        | cons a l => simp
      have hnew : (appendFromPerm az d zones (perms k)).length =
          min d (zones.length + (perms k).length) := by
        rw [appendFromPerm_eq_take az d _ _ hlt]
        simp [List.length_take]
      refine ih (k + 1) _ ?_ ?_
      · omega
      · rw [hnew, hlen k]; omega
    · rw [if_neg hlt]
      exact ⟨zones, rfl⟩

/-- When enough zones are available, the loop exits after its very first
pass, returning the target-length prefix of the first permutation's picks. -/
theorem randomSelectionLoop_onepass (perms : Nat → List Nat) (az : List String)
    (d : Nat) (hd : 1 ≤ d) (hn : d ≤ az.length)
    (hlen : (perms 0).length = az.length) :
    ∀ (fuel : Nat) (zs : List String),
      randomSelectionLoop perms az d fuel 0 [] = some zs →
      zs = ((perms 0).map (fun i => az.getD i "")).take d := by
  intro fuel zs h
  match fuel with
  | 0 => simp [randomSelectionLoop] at h
  | fuel + 1 =>
    rw [randomSelectionLoop, if_pos (by simpa using hd)] at h
    have hchar : appendFromPerm az d [] (perms 0) =
        ((perms 0).map (fun i => az.getD i "")).take d := by
      rw [appendFromPerm_eq_take az d _ _ (by simpa using hd)]
      simp
    rw [hchar] at h
    have hfull : (((perms 0).map (fun i => az.getD i "")).take d).length = d := by
      simp [List.length_take, hlen]
      omega
    match fuel with
    | 0 => simp [randomSelectionLoop] at h
    | fuel + 1 =>
      rw [randomSelectionLoop, if_neg (by rw [hfull]; omega)] at h
      simpa using h.symm

/-- Reading a list back at every index of `range` reproduces the list. -/
theorem map_getD_range (az : List String) :
    (List.range az.length).map (fun i => az.getD i "") = az := by
  apply List.ext_getElem (by simp)
  intro i h1 h2
  simp only [List.getElem_map, List.getElem_range]
  exact List.getD_eq_getElem az "" h2

/-- Picking along (a prefix of) a genuine permutation of the indices of a
duplicate-free list yields a duplicate-free list. -/
theorem take_map_perm_nodup (az : List String) (p : List Nat) (d : Nat)
    (hperm : List.Perm p (List.range az.length)) (haz : az.Nodup) :
    ((p.map (fun i => az.getD i "")).take d).Nodup := by
  have hp_nodup : p.Nodup := (List.Perm.nodup_iff hperm).mpr (List.nodup_range az.length)
  have hmem : ∀ i ∈ p, i < az.length := by
    intro i hi
    have := (hperm.mem_iff).mp hi
    simpa [List.mem_range] using this
  have hmap : (p.map (fun i => az.getD i "")).Nodup := by
    refine List.Nodup.map_on ?_ hp_nodup
    intro i hi j hj hf
    have hi' := hmem i hi
    have hj' := hmem j hj
    rw [List.getD_eq_getElem az "" hi', List.getD_eq_getElem az "" hj'] at hf
    exact (List.Nodup.getElem_inj_iff haz).mp hf
  exact List.Nodup.sublist (List.take_sublist _ _) hmap

/-- Pigeonhole: a list longer than the pool it draws from cannot be
duplicate-free. -/
theorem not_nodup_of_longer (zs az : List String) (hsub : ∀ x ∈ zs, x ∈ az)
    (hgt : az.length < zs.length) : ¬ zs.Nodup := by
  intro hnd
  have hle := (List.Nodup.subperm hnd (fun x hx => hsub x hx)).length_le
  omega

/-- Membership in `filterZones`: exactly the zone names of source zones
whose zone id escapes the denylist. -/
theorem mem_filterZones {region : String} {zones : List AvailabilityZone}
    {x : String} :
    x ∈ filterZones region zones ↔
      ∃ z ∈ zones, (zoneIDsToAvoid region).contains z.zoneId = false ∧
        z.zoneName = x := by
  simp only [filterZones, List.mem_map, List.mem_filter, Bool.not_eq_true']
  constructor
  · rintro ⟨z, ⟨hz, hid⟩, hname⟩
    exact ⟨z, hz, hid, hname⟩
  · rintro ⟨z, hz, hid, hname⟩
    exact ⟨z, ⟨hz, hid⟩, hname⟩

/-- Unfolding `getAvailabilityZones` on a successful source response. -/
theorem getAvailabilityZones_ok (ec2API : EC2API) (region : String)
    (output : DescribeAvailabilityZonesOutput)
    (hapi : ec2API (describeAZInput region) = .ok output) :
    getAvailabilityZones ec2API region =
      .ok (filterZones region output.availabilityZones) := by
  rw [getAvailabilityZones, hapi]

/-- A valid permutation stream always draws index lists of full length. -/
theorem validPerms_length (perms : Nat → List Nat) (n : Nat)
    (h : ValidPerms perms n) (k : Nat) : (perms k).length = n := by
  have := (h k).length_eq
  simpa using this

/-- A valid permutation stream only draws in-range indices. -/
theorem validPerms_lt (perms : Nat → List Nat) (n : Nat) (h : ValidPerms perms n)
    (k i : Nat) (hi : i ∈ perms k) : i < n := by
  have := ((h k).mem_iff).mp hi
  simpa [List.mem_range] using this

/-- Everything picked along a prefix of in-range indices is an available
zone. -/
theorem mem_take_map_perm (az : List String) (p : List Nat) (d : Nat)
    (hmem : ∀ i ∈ p, i < az.length) :
    ∀ x ∈ (p.map (fun i => az.getD i "")).take d, x ∈ az := by
  intro x hx
  have hx' : x ∈ p.map (fun i => az.getD i "") := List.take_subset d _ hx
  rcases List.mem_map.mp hx' with ⟨i, hi, rfl⟩
  rw [List.getD_eq_getElem az "" (hmem i hi)]
  exact List.getElem_mem _

/-- With enough zones available and at least two units of fuel, the
sampling loop exits after its first pass with the target-length prefix of
the first permutation's picks. -/
theorem randomSelectionLoop_onepass_some (perms : Nat → List Nat)
    (az : List String) (d : Nat) (hd : 1 ≤ d) (hn : d ≤ az.length)
    (hlen : (perms 0).length = az.length) (fuel : Nat) (hfuel : 2 ≤ fuel) :
    randomSelectionLoop perms az d fuel 0 [] =
      some (((perms 0).map (fun i => az.getD i "")).take d) := by
  match fuel, hfuel with
  | fuel + 2, _ =>
    rw [randomSelectionLoop, if_pos (by simpa using hd)]
    have hchar : appendFromPerm az d [] (perms 0) =
        ((perms 0).map (fun i => az.getD i "")).take d := by
      rw [appendFromPerm_eq_take az d _ _ (by simpa using hd)]
      simp
    rw [hchar, randomSelectionLoop, if_neg (by simp [List.length_take, hlen]; omega)]

/-- Given a successful source response, a successful `GetAvailabilityZones`
run returns either the whole filtered list (under-threshold case) or a
successful random selection from it. -/
theorem GetAvailabilityZones_cases (fuel : Nat) (perms : Nat → List Nat)
    (ec2API : EC2API) (region : String) (output : DescribeAvailabilityZonesOutput)
    (hapi : ec2API (describeAZInput region) = .ok output) :
    ∀ zs, GetAvailabilityZones fuel perms ec2API region = some (.ok zs) →
      zs = filterZones region output.availabilityZones ∨
      randomSelectionOfZones fuel perms region
        (filterZones region output.availabilityZones) = some zs := by
  intro zs h
  rw [GetAvailabilityZones, getAvailabilityZones_ok ec2API region output hapi] at h
  dsimp only at h
  by_cases h1 : (filterZones region output.availabilityZones).length <
      MinRequiredAvailabilityZones
  · rw [if_pos h1] at h
    simp at h
  · rw [if_neg h1] at h
    by_cases h2 : (filterZones region output.availabilityZones).length <
        RecommendedAvailabilityZones
    · rw [if_pos h2] at h
      left
      have := Option.some.inj h
      exact (Except.ok.inj this).symm
    · rw [if_neg h2] at h
      right
      cases hro : randomSelectionOfZones fuel perms region
          (filterZones region output.availabilityZones) with
      | none => rw [hro] at h; simp at h
      | some zs' =>
        rw [hro] at h
        have h' : zs' = zs := by simpa using h
        rw [h']

/-- Unfolding `randomSelectionOfZones` to the loop at its region-determined
target count. -/
theorem randomSelectionOfZones_eq (fuel : Nat) (perms : Nat → List Nat)
    (region : String) (az : List String) :
    randomSelectionOfZones fuel perms region az =
      randomSelectionLoop perms az
        (if region = RegionUSEast1 then MinRequiredAvailabilityZones
         else RecommendedAvailabilityZones) fuel 0 [] := rfl

/-- Unfolding `GetAvailabilityZones` in the under-threshold success branch:
everything available is returned. -/
theorem GetAvailabilityZones_all (fuel : Nat) (perms : Nat → List Nat)
    (ec2API : EC2API) (region : String) (output : DescribeAvailabilityZonesOutput)
    (hapi : ec2API (describeAZInput region) = .ok output)
    (h2 : 2 ≤ (filterZones region output.availabilityZones).length)
    (h3 : (filterZones region output.availabilityZones).length < 3) :
    GetAvailabilityZones fuel perms ec2API region =
      some (.ok (filterZones region output.availabilityZones)) := by
  rw [GetAvailabilityZones, getAvailabilityZones_ok ec2API region output hapi]
  dsimp only
  rw [if_neg (by simp only [MinRequiredAvailabilityZones]; omega),
    if_pos (by simp only [RecommendedAvailabilityZones]; omega)]

/-- Unfolding `GetAvailabilityZones` in the sampling branch. -/
theorem GetAvailabilityZones_random (fuel : Nat) (perms : Nat → List Nat)
    (ec2API : EC2API) (region : String) (output : DescribeAvailabilityZonesOutput)
    (hapi : ec2API (describeAZInput region) = .ok output)
    (h3 : 3 ≤ (filterZones region output.availabilityZones).length) :
    GetAvailabilityZones fuel perms ec2API region =
      (randomSelectionOfZones fuel perms region
        (filterZones region output.availabilityZones)).map Except.ok := by
  rw [GetAvailabilityZones, getAvailabilityZones_ok ec2API region output hapi]
  dsimp only
  rw [if_neg (by simp only [MinRequiredAvailabilityZones]; omega),
    if_neg (by simp only [RecommendedAvailabilityZones]; omega)]

/-- Unfolding `SetLocalZones` on a non-empty request and a successful
source response. -/
theorem SetLocalZones_ok (ec2Api : EC2API) (spec : ClusterConfig) (region : String)
    (output : DescribeAvailabilityZonesOutput) (hne : spec.localZones ≠ [])
    (hapi : ec2Api (localZonesInput spec.localZones region) = .ok output) :
    SetLocalZones spec ec2Api region =
      { spec := { spec with localZones := filterZones region output.availabilityZones }
        err := none
        queries := [localZonesInput spec.localZones region]
        warnings := if spec.vpc.id = "" then [] else [localZonesWarning] } := by
  rw [SetLocalZones, if_neg (by simpa [List.length_eq_zero] using hne)]
  dsimp only
  rw [hapi]

/-- Unfolding `SetLocalZones` on a non-empty request and a failing source
response. -/
theorem SetLocalZones_err (ec2Api : EC2API) (spec : ClusterConfig) (region : String)
    (e : String) (hne : spec.localZones ≠ [])
    (hapi : ec2Api (localZonesInput spec.localZones region) = .error e) :
    SetLocalZones spec ec2Api region =
      { spec := spec
        err := some ("error validating local zone(s) " ++ goStringSlice spec.localZones
          ++ ": " ++ e)
        queries := [localZonesInput spec.localZones region]
        warnings := if spec.vpc.id = "" then [] else [localZonesWarning] } := by
  rw [SetLocalZones, if_neg (by simpa [List.length_eq_zero] using hne)]
  dsimp only
  rw [hapi]

/-- Witness fixture: build an availability zone record. -/
def mkAZ (region st zone zoneID : String) : AvailabilityZone :=
  { regionName := region, state := st, zoneName := zone, zoneId := zoneID }

/-- Witness fixture: a zone source answering the one general describe query
for `region` with `zones` and rejecting anything else. -/
def apiFor (region : String) (zones : List AvailabilityZone) : EC2API := fun input =>
  if input = describeAZInput region then .ok { availabilityZones := zones }
  else .error "unexpected call"

/-- Witness fixture: a zone source answering the one local-zone query for
`names` in `region` with `zones` and rejecting anything else. -/
def lzApiFor (names : List String) (region : String) (zones : List AvailabilityZone) :
    EC2API := fun input =>
  if input = localZonesInput names region then .ok { availabilityZones := zones }
  else .error "unexpected call"

/-- Witness fixture: the identity permutation stream. -/
def permsId (n : Nat) : Nat → List Nat := fun _ => List.range n

/-- The identity permutation stream is a valid model of `rand.Perm`. -/
theorem permsId_valid (n : Nat) : ValidPerms (permsId n) n :=
  fun _ => List.Perm.refl _

/-- Witness fixture: one zone in us-west-1. -/
def zonesW1 : List AvailabilityZone := [mkAZ "us-west-1" "available" "zone1" "id-zone1"]

/-- Witness fixture: two zones in us-west-1. -/
def zonesW2 : List AvailabilityZone :=
  [mkAZ "us-west-1" "available" "zone1" "id-zone1",
   mkAZ "us-west-1" "available" "zone2" "id-zone2"]

/-- Witness fixture: four zones in us-west-1. -/
def zonesW4 : List AvailabilityZone :=
  [mkAZ "us-west-1" "available" "zone1" "id-zone1",
   mkAZ "us-west-1" "available" "zone2" "id-zone2",
   mkAZ "us-west-1" "available" "zone3" "id-zone3",
   mkAZ "us-west-1" "available" "zone4" "id-zone4"]

/-- Witness fixture: three zones in us-east-1. -/
def zonesE3 : List AvailabilityZone :=
  [mkAZ "us-east-1" "available" "zone1" "id-zone1",
   mkAZ "us-east-1" "available" "zone2" "id-zone2",
   mkAZ "us-east-1" "available" "zone3" "id-zone3"]

/-- Witness fixture: three cn-north-1 zones, the third carrying the
denylisted zone id. -/
def zonesCN : List AvailabilityZone :=
  [mkAZ "cn-north-1" "available" "zone1" "id-zone1",
   mkAZ "cn-north-1" "available" "zone2" "id-zone2",
   mkAZ "cn-north-1" "available" "zone3" "cnn1-az4"]

/-- Claim C1: for every Attribute Manager operation (Get, Set, Unset), the
fallback to the remote control-plane path occurs precisely when the Stack
Service error, unwrapped through any wrapping layers, is a control-plane
validation-class error; for every other Stack Service error the operation
returns that error unchanged and does not contact the remote control
plane. -/
theorem attrManager_fallback_iff_validation (e : StackError)
    (remoteGet : Except StackError (List (String × Option String)))
    (remoteSet remoteUnset : Except StackError Unit) :
    (isFallbackTriggering e = true ↔ ∃ msg, unwrapError e = .validation msg) ∧
    (managerGet (.error e) remoteGet).remoteCalled = isFallbackTriggering e ∧
    (managerSet (.error e) remoteSet).remoteCalled = isFallbackTriggering e ∧
    (managerUnset (.error e) remoteUnset).remoteCalled = isFallbackTriggering e ∧
    (isFallbackTriggering e = false →
      managerGet (.error e) remoteGet = { result := .error e, remoteCalled := false } ∧
      managerSet (.error e) remoteSet = { result := .error e, remoteCalled := false } ∧
      managerUnset (.error e) remoteUnset = { result := .error e, remoteCalled := false }) := by
  refine ⟨?_, ?_, ?_, ?_, ?_⟩
  · rw [isFallbackTriggering]
    cases h : unwrapError e <;> simp
  · cases hf : isFallbackTriggering e <;> cases remoteGet <;> simp [managerGet, hf]
  · cases hf : isFallbackTriggering e <;> cases remoteSet <;> simp [managerSet, hf]
  · cases hf : isFallbackTriggering e <;> cases remoteUnset <;> simp [managerUnset, hf]
  · intro h
    refine ⟨?_, ?_, ?_⟩
    · cases remoteGet <;> simp [managerGet, h]
    · cases remoteSet <;> simp [managerSet, h]
    · cases remoteUnset <;> simp [managerUnset, h]

/-- Witness for C1: a wrapped non-validation failure is returned verbatim
by all three operations without contacting the remote control plane. -/
theorem attrManager_fallback_iff_validation_witness :
    managerGet (.error (.wrap "omg what" (.other "something-terrible")))
        (.ok [("k1", some "v1")]) =
      { result := .error (.wrap "omg what" (.other "something-terrible"))
        remoteCalled := false } ∧
    managerSet (.error (.wrap "omg what" (.other "something-terrible"))) (.ok ()) =
      { result := .error (.wrap "omg what" (.other "something-terrible"))
        remoteCalled := false } ∧
    managerUnset (.error (.wrap "omg what" (.other "something-terrible"))) (.ok ()) =
      { result := .error (.wrap "omg what" (.other "something-terrible"))
        remoteCalled := false } :=
  (attrManager_fallback_iff_validation (.wrap "omg what" (.other "something-terrible"))
    (.ok [("k1", some "v1")]) (.ok ()) (.ok ())).2.2.2.2 (by decide)

/-- Claim C8: with an empty requested local-zone list, `SetLocalZones` is
an immediate no-op success: no zone source query, no warning, every field
of the caller's spec unchanged. -/
theorem setLocalZones_empty_noop (ec2Api : EC2API) (spec : ClusterConfig)
    (region : String) (h : spec.localZones = []) :
    SetLocalZones spec ec2Api region =
      { spec := spec, err := none, queries := [], warnings := [] } := by
  rw [SetLocalZones, if_pos (by simp [h])]

/-- Witness for C8 at a concrete config with a VPC ID set. -/
theorem setLocalZones_empty_noop_witness :
    SetLocalZones { localZones := [], vpc := { id := "vpc-123" }, remainder := "rest" }
        (apiFor "us-west-2" []) "us-west-2" =
      { spec := { localZones := [], vpc := { id := "vpc-123" }, remainder := "rest" }
        err := none, queries := [], warnings := [] } :=
  setLocalZones_empty_noop (apiFor "us-west-2" [])
    { localZones := [], vpc := { id := "vpc-123" }, remainder := "rest" } "us-west-2" rfl

/-- Claim C7: on a non-empty request, if the zone source query fails,
`SetLocalZones` returns a wrapped error naming the requested zone list and
the underlying cause, and the caller's spec is left entirely unchanged. -/
theorem setLocalZones_error_preserves_spec (ec2Api : EC2API) (spec : ClusterConfig)
    (region : String) (e : String) (hne : spec.localZones ≠ [])
    (hapi : ec2Api (localZonesInput spec.localZones region) = .error e) :
    (SetLocalZones spec ec2Api region).err =
      some ("error validating local zone(s) " ++
        ("[" ++ String.intercalate " " spec.localZones ++ "]") ++ ": " ++ e) ∧
    (SetLocalZones spec ec2Api region).spec = spec := by
  rw [SetLocalZones_err ec2Api spec region e hne hapi]
  exact ⟨rfl, rfl⟩

/-- Witness for C7: the az_test.go fixture, yielding the exact message the
test asserts. -/
theorem setLocalZones_error_preserves_spec_witness :
    (SetLocalZones
        { localZones := ["us-west-2-lax-1", "us-west-2-lax-2"], vpc := { id := "" },
          remainder := "rest" }
        (fun _ => .error "err") "us-west-2").err =
      some "error validating local zone(s) [us-west-2-lax-1 us-west-2-lax-2]: err" ∧
    (SetLocalZones
        { localZones := ["us-west-2-lax-1", "us-west-2-lax-2"], vpc := { id := "" },
          remainder := "rest" }
        (fun _ => .error "err") "us-west-2").spec =
      { localZones := ["us-west-2-lax-1", "us-west-2-lax-2"], vpc := { id := "" },
        remainder := "rest" } :=
  setLocalZones_error_preserves_spec (fun _ => .error "err")
    { localZones := ["us-west-2-lax-1", "us-west-2-lax-2"], vpc := { id := "" },
      remainder := "rest" }
    "us-west-2" "err" (by decide) rfl

/-- Claim C6: on a non-empty request with a successful source response,
`SetLocalZones` succeeds and overwrites the zone-list field with exactly
the denylist-filtered names of the returned zones — requested zones that
are denylisted or absent from the response are silently dropped — while
the rest of the spec is untouched. -/
theorem setLocalZones_overwrites_with_filtered (ec2Api : EC2API)
    (spec : ClusterConfig) (region : String)
    (output : DescribeAvailabilityZonesOutput) (hne : spec.localZones ≠ [])
    (hapi : ec2Api (localZonesInput spec.localZones region) = .ok output) :
    (SetLocalZones spec ec2Api region).err = none ∧
    (SetLocalZones spec ec2Api region).spec.localZones =
      filterZones region output.availabilityZones ∧
    (∀ x, x ∈ (SetLocalZones spec ec2Api region).spec.localZones ↔
      ∃ z ∈ output.availabilityZones,
        (zoneIDsToAvoid region).contains z.zoneId = false ∧ z.zoneName = x) ∧
    (SetLocalZones spec ec2Api region).spec.vpc = spec.vpc ∧
    (SetLocalZones spec ec2Api region).spec.remainder = spec.remainder := by
  rw [SetLocalZones_ok ec2Api spec region output hne hapi]
  exact ⟨rfl, rfl, fun x => mem_filterZones, rfl, rfl⟩

/-- Witness for C6: the az_test.go denylisted-local-zone fixture — the
requested zone is returned by the source but denylisted, so it is dropped
and the call still succeeds. -/
theorem setLocalZones_overwrites_with_filtered_witness :
    (SetLocalZones { localZones := ["cnn1-az4"], vpc := { id := "" }, remainder := "rest" }
        (lzApiFor ["cnn1-az4"] RegionCNNorth1
          [mkAZ "cn-north-1" "available" "cnn1-az4" "cnn1-az4"]) RegionCNNorth1).err =
      none ∧
    (SetLocalZones { localZones := ["cnn1-az4"], vpc := { id := "" }, remainder := "rest" }
        (lzApiFor ["cnn1-az4"] RegionCNNorth1
          [mkAZ "cn-north-1" "available" "cnn1-az4" "cnn1-az4"]) RegionCNNorth1).spec.localZones =
      filterZones RegionCNNorth1 [mkAZ "cn-north-1" "available" "cnn1-az4" "cnn1-az4"] := by
  have h := setLocalZones_overwrites_with_filtered
    (lzApiFor ["cnn1-az4"] RegionCNNorth1
      [mkAZ "cn-north-1" "available" "cnn1-az4" "cnn1-az4"])
    { localZones := ["cnn1-az4"], vpc := { id := "" }, remainder := "rest" }
    RegionCNNorth1
    { availabilityZones := [mkAZ "cn-north-1" "available" "cnn1-az4" "cnn1-az4"] }
    (by decide) rfl
  exact ⟨h.1, h.2.1⟩

/-- Claim C10: on a non-empty request, `SetLocalZones` behaves identically
whatever the spec's VPC ID is — the error outcome, the issued query and
the resulting zone list do not depend on it; a non-empty VPC ID only adds
the warning log. -/
theorem setLocalZones_vpc_id_irrelevant (ec2Api : EC2API) (region : String)
    (lz : List String) (v1 v2 : ClusterVPC) (rem : String) (hne : lz ≠ []) :
    (SetLocalZones { localZones := lz, vpc := v1, remainder := rem } ec2Api region).err =
      (SetLocalZones { localZones := lz, vpc := v2, remainder := rem } ec2Api region).err ∧
    (SetLocalZones { localZones := lz, vpc := v1, remainder := rem } ec2Api region).queries =
      (SetLocalZones { localZones := lz, vpc := v2, remainder := rem } ec2Api region).queries ∧
    (SetLocalZones { localZones := lz, vpc := v1, remainder := rem } ec2Api
        region).spec.localZones =
      (SetLocalZones { localZones := lz, vpc := v2, remainder := rem } ec2Api
        region).spec.localZones ∧
    (SetLocalZones { localZones := lz, vpc := v1, remainder := rem } ec2Api region).spec.vpc =
      v1 ∧
    (SetLocalZones { localZones := lz, vpc := v1, remainder := rem } ec2Api region).warnings =
      (if v1.id = "" then [] else [localZonesWarning]) := by
  cases hapi : ec2Api (localZonesInput lz region) with
  | error e =>
    rw [SetLocalZones_err ec2Api { localZones := lz, vpc := v1, remainder := rem }
        region e hne hapi,
      SetLocalZones_err ec2Api { localZones := lz, vpc := v2, remainder := rem }
        region e hne hapi]
    exact ⟨rfl, rfl, rfl, rfl, rfl⟩
  | ok output =>
    rw [SetLocalZones_ok ec2Api { localZones := lz, vpc := v1, remainder := rem }
        region output hne hapi,
      SetLocalZones_ok ec2Api { localZones := lz, vpc := v2, remainder := rem }
        region output hne hapi]
    exact ⟨rfl, rfl, rfl, rfl, rfl⟩

/-- Witness for C10 at a concrete failing source, comparing a set VPC ID
against an empty one. -/
theorem setLocalZones_vpc_id_irrelevant_witness :
    (SetLocalZones
        { localZones := ["us-west-2-lax-1"], vpc := { id := "vpc-123" }, remainder := "rest" }
        (fun _ => .error "err") "us-west-2").err =
      (SetLocalZones
        { localZones := ["us-west-2-lax-1"], vpc := { id := "" }, remainder := "rest" }
        (fun _ => .error "err") "us-west-2").err ∧
    (SetLocalZones
        { localZones := ["us-west-2-lax-1"], vpc := { id := "vpc-123" }, remainder := "rest" }
        (fun _ => .error "err") "us-west-2").queries =
      (SetLocalZones
        { localZones := ["us-west-2-lax-1"], vpc := { id := "" }, remainder := "rest" }
        (fun _ => .error "err") "us-west-2").queries ∧
    (SetLocalZones
        { localZones := ["us-west-2-lax-1"], vpc := { id := "vpc-123" }, remainder := "rest" }
        (fun _ => .error "err") "us-west-2").spec.localZones =
      (SetLocalZones
        { localZones := ["us-west-2-lax-1"], vpc := { id := "" }, remainder := "rest" }
        (fun _ => .error "err") "us-west-2").spec.localZones ∧
    (SetLocalZones
        { localZones := ["us-west-2-lax-1"], vpc := { id := "vpc-123" }, remainder := "rest" }
        (fun _ => .error "err") "us-west-2").spec.vpc = { id := "vpc-123" } ∧
    (SetLocalZones
        { localZones := ["us-west-2-lax-1"], vpc := { id := "vpc-123" }, remainder := "rest" }
        (fun _ => .error "err") "us-west-2").warnings =
      (if ("vpc-123" : String) = "" then [] else [localZonesWarning]) :=
  setLocalZones_vpc_id_irrelevant (fun _ => .error "err") "us-west-2"
    ["us-west-2-lax-1"] { id := "vpc-123" } { id := "" } "rest" (by decide)

/-- Claim C5: when fewer than 2 (MinRequired) zones remain after filtering,
`GetAvailabilityZones` returns no zones and an error message reporting the
count, the discovered zone names, and the required minimum 2. -/
theorem getAZ_insufficient_zones_error (fuel : Nat) (perms : Nat → List Nat)
    (ec2API : EC2API) (region : String) (output : DescribeAvailabilityZonesOutput)
    (hapi : ec2API (describeAZInput region) = .ok output)
    (hlt : (filterZones region output.availabilityZones).length < 2) :
    GetAvailabilityZones fuel perms ec2API region =
      some (.error ("only " ++
        toString (filterZones region output.availabilityZones).length ++
        " zones discovered " ++
        ("[" ++ String.intercalate " " (filterZones region output.availabilityZones) ++ "]") ++
        ", at least " ++ "2" ++ " are required")) := by
  rw [GetAvailabilityZones, getAvailabilityZones_ok ec2API region output hapi]
  dsimp only
  rw [if_pos (show (filterZones region output.availabilityZones).length <
    MinRequiredAvailabilityZones from hlt)]
  rfl

/-- Witness for C5: with exactly one discovered zone the message is the one
az_test.go asserts, reporting 1 discovered and 2 required. -/
theorem getAZ_insufficient_zones_error_witness :
    GetAvailabilityZones 2 (permsId 1) (apiFor "us-west-1" zonesW1) "us-west-1" =
      some (.error "only 1 zones discovered [zone1], at least 2 are required") := by
  have h := getAZ_insufficient_zones_error 2 (permsId 1) (apiFor "us-west-1" zonesW1)
    "us-west-1" { availabilityZones := zonesW1 } rfl (by decide)
  exact h

/-- Claim C2: no zone whose zone id is denylisted for its region is ever
exposed — every name in a successful `GetAvailabilityZones` result, and
every name `SetLocalZones` writes into the zone-list field, is the name of
a source zone whose zone id passed the denylist filter, even when a
denylisted zone was explicitly requested by name. -/
theorem denylisted_zone_never_exposed (fuel : Nat) (perms : Nat → List Nat)
    (ec2API : EC2API) (region : String) :
    (∀ output zs, ec2API (describeAZInput region) = .ok output →
      ValidPerms perms (filterZones region output.availabilityZones).length →
      GetAvailabilityZones fuel perms ec2API region = some (.ok zs) →
      ∀ x ∈ zs, ∃ z ∈ output.availabilityZones,
        (zoneIDsToAvoid region).contains z.zoneId = false ∧ z.zoneName = x) ∧
    (∀ spec output, ec2API (localZonesInput spec.localZones region) = .ok output →
      ∀ x ∈ (SetLocalZones spec ec2API region).spec.localZones,
        ∃ z ∈ output.availabilityZones,
          (zoneIDsToAvoid region).contains z.zoneId = false ∧ z.zoneName = x) := by
  constructor
  · intro output zs hapi hvp hres x hx
    rcases GetAvailabilityZones_cases fuel perms ec2API region output hapi zs hres
      with h | h
    · exact mem_filterZones.mp (h ▸ hx)
    · rw [randomSelectionOfZones_eq] at h
      rcases randomSelectionLoop_mem perms (filterZones region output.availabilityZones)
        _ (fun k i hi => validPerms_lt perms _ hvp k i hi) fuel 0 [] zs h x hx
        with h' | h'
      · simp at h'
      · exact mem_filterZones.mp h'
  · intro spec output hapi x hx
    by_cases hne : spec.localZones = []
    · have hnoop : (SetLocalZones spec ec2API region).spec.localZones =
          spec.localZones := by
        rw [SetLocalZones, if_pos (by simp [hne])]
      rw [hnoop, hne] at hx
      simp at hx
    · rw [SetLocalZones_ok ec2API spec region output hne hapi] at hx
      exact mem_filterZones.mp hx

/-- Witness for C2: in cn-north-1 with one denylisted zone among three, the
returned name "zone1" is backed by a non-denylisted source zone. -/
theorem denylisted_zone_never_exposed_witness :
    ∃ z ∈ zonesCN, (zoneIDsToAvoid RegionCNNorth1).contains z.zoneId = false ∧
      z.zoneName = "zone1" :=
  (denylisted_zone_never_exposed 2 (permsId 2) (apiFor RegionCNNorth1 zonesCN)
    RegionCNNorth1).1 { availabilityZones := zonesCN } ["zone1", "zone2"] rfl
    (permsId_valid 2) rfl "zone1" (by decide)

/-- Claim C3: with at least Recommended (3) zones after filtering,
`GetAvailabilityZones` succeeds with a selection drawn from the filtered
set without replacement — pairwise distinct zones, exactly 3 of them in
general and exactly 2 in us-east-1, the degraded-capacity region. -/
theorem getAZ_random_selection_spec (fuel : Nat) (perms : Nat → List Nat)
    (ec2API : EC2API) (region : String) (output : DescribeAvailabilityZonesOutput)
    (hapi : ec2API (describeAZInput region) = .ok output)
    (hvp : ValidPerms perms (filterZones region output.availabilityZones).length)
    (hge : 3 ≤ (filterZones region output.availabilityZones).length)
    (hnd : (filterZones region output.availabilityZones).Nodup)
    (hfuel : 2 ≤ fuel) :
    ∃ zs, GetAvailabilityZones fuel perms ec2API region = some (.ok zs) ∧
      zs.length = (if region = RegionUSEast1 then 2 else 3) ∧
      zs.Nodup ∧ ∀ x ∈ zs, x ∈ filterZones region output.availabilityZones := by
  have hlen0 := validPerms_length perms _ hvp 0
  set az := filterZones region output.availabilityZones with haz
  set d : Nat := if region = RegionUSEast1 then MinRequiredAvailabilityZones
    else RecommendedAvailabilityZones with hdd
  have hd13 : 1 ≤ d ∧ d ≤ 3 := by
    rw [hdd]
    split_ifs <;>
      simp only [MinRequiredAvailabilityZones, RecommendedAvailabilityZones] <;> omega
  have hdn : d ≤ az.length := by omega
  have hloop := randomSelectionLoop_onepass_some perms az d hd13.1 hdn hlen0 fuel hfuel
  refine ⟨((perms 0).map (fun i => az.getD i "")).take d, ?_, ?_, ?_, ?_⟩
  · rw [GetAvailabilityZones_random fuel perms ec2API region output hapi hge,
      randomSelectionOfZones_eq, ← hdd, hloop]
    rfl
  · rw [List.length_take, List.length_map, hlen0, hdd]
    split_ifs <;>
      simp only [MinRequiredAvailabilityZones, RecommendedAvailabilityZones] <;> omega
  · exact take_map_perm_nodup az (perms 0) d (hvp 0) hnd
  · exact mem_take_map_perm az (perms 0) d
      (fun i hi => validPerms_lt perms az.length hvp 0 i hi)

/-- Witness for C3: four zones in us-west-1 give three pairwise distinct
zones drawn from the four. -/
theorem getAZ_random_selection_spec_witness :
    ∃ zs, GetAvailabilityZones 2 (permsId 4) (apiFor "us-west-1" zonesW4)
        "us-west-1" = some (.ok zs) ∧
      zs.length = (if "us-west-1" = RegionUSEast1 then 2 else 3) ∧
      zs.Nodup ∧ ∀ x ∈ zs, x ∈ filterZones "us-west-1" zonesW4 :=
  getAZ_random_selection_spec 2 (permsId 4) (apiFor "us-west-1" zonesW4) "us-west-1"
    { availabilityZones := zonesW4 } rfl (permsId_valid 4) (by decide) (by decide)
    (by decide)

/-- Claim C4 counterexample: in us-east-1 with exactly 3 zones available
after filtering, `GetAvailabilityZones` returns only 2 of them — not all —
so "with exactly 2 or exactly 3 zones returns all of them" fails for the
degraded-capacity region. -/
theorem getAZ_three_zones_useast1_cx :
    filterZones "us-east-1" zonesE3 = ["zone1", "zone2", "zone3"] ∧
    GetAvailabilityZones 2 (permsId 3) (apiFor "us-east-1" zonesE3) "us-east-1" =
      some (.ok ["zone1", "zone2"]) ∧
    ¬ ("zone3" ∈ (["zone1", "zone2"] : List String)) :=
  ⟨rfl, rfl, by decide⟩

/-- Claim C4 (amended): with exactly 2 filtered zones every region gets
both, with no sampling; with exactly 3 filtered zones a region other than
us-east-1 gets a random permutation of all 3 (the sampling path runs but
drops none), while us-east-1 gets only 2 pairwise distinct zones of the
3. -/
theorem getAZ_two_or_three_zones_amended (fuel : Nat) (perms : Nat → List Nat)
    (ec2API : EC2API) (region : String) (output : DescribeAvailabilityZonesOutput)
    (hapi : ec2API (describeAZInput region) = .ok output)
    (hvp : ValidPerms perms (filterZones region output.availabilityZones).length)
    (hfuel : 2 ≤ fuel) :
    ((filterZones region output.availabilityZones).length = 2 →
      GetAvailabilityZones fuel perms ec2API region =
        some (.ok (filterZones region output.availabilityZones))) ∧
    ((filterZones region output.availabilityZones).length = 3 →
      region ≠ RegionUSEast1 →
      ∃ zs, GetAvailabilityZones fuel perms ec2API region = some (.ok zs) ∧
        List.Perm zs (filterZones region output.availabilityZones)) ∧
    ((filterZones region output.availabilityZones).length = 3 →
      region = RegionUSEast1 →
      (filterZones region output.availabilityZones).Nodup →
      ∃ zs, GetAvailabilityZones fuel perms ec2API region = some (.ok zs) ∧
        zs.length = 2 ∧ zs.Nodup ∧
        ∀ x ∈ zs, x ∈ filterZones region output.availabilityZones) := by
  have hlen0 := validPerms_length perms _ hvp 0
  set az := filterZones region output.availabilityZones with haz
  refine ⟨?_, ?_, ?_⟩
  · intro h2
    exact GetAvailabilityZones_all fuel perms ec2API region output hapi
      (by rw [← haz]; omega) (by rw [← haz]; omega)
  · intro h3 hre
    have hd : (if region = RegionUSEast1 then MinRequiredAvailabilityZones
        else RecommendedAvailabilityZones) = 3 := by
      rw [if_neg hre]
      rfl
    have hloop := randomSelectionLoop_onepass_some perms az 3 (by omega) (by omega)
      hlen0 fuel hfuel
    refine ⟨((perms 0).map (fun i => az.getD i "")).take 3, ?_, ?_⟩
    · rw [GetAvailabilityZones_random fuel perms ec2API region output hapi
        (by rw [← haz]; omega), randomSelectionOfZones_eq, hd, hloop]
      rfl
    · have htake : ((perms 0).map (fun i => az.getD i "")).take 3 =
          (perms 0).map (fun i => az.getD i "") := by
        apply List.take_of_length_le
        simp [hlen0, h3]
      rw [htake]
      have hperm : List.Perm ((perms 0).map (fun i => az.getD i ""))
          ((List.range az.length).map (fun i => az.getD i "")) :=
        List.Perm.map _ (hvp 0)
      rw [map_getD_range az] at hperm
      exact hperm
  · intro h3 hre hnd
    have hd : (if region = RegionUSEast1 then MinRequiredAvailabilityZones
        else RecommendedAvailabilityZones) = 2 := by
      rw [if_pos hre]
      rfl
    have hloop := randomSelectionLoop_onepass_some perms az 2 (by omega) (by omega)
      hlen0 fuel hfuel
    refine ⟨((perms 0).map (fun i => az.getD i "")).take 2, ?_, ?_, ?_, ?_⟩
    · rw [GetAvailabilityZones_random fuel perms ec2API region output hapi
        (by rw [← haz]; omega), randomSelectionOfZones_eq, hd, hloop]
      rfl
    · rw [List.length_take, List.length_map, hlen0]
      omega
    · exact take_map_perm_nodup az (perms 0) 2 (hvp 0) hnd
    · exact mem_take_map_perm az (perms 0) 2
        (fun i hi => validPerms_lt perms az.length hvp 0 i hi)

/-- Witness for C4 (amended): two zones in us-west-1 are returned exactly
as filtered. -/
theorem getAZ_two_or_three_zones_amended_witness :
    GetAvailabilityZones 2 (permsId 2) (apiFor "us-west-1" zonesW2) "us-west-1" =
      some (.ok (filterZones "us-west-1" zonesW2)) :=
  (getAZ_two_or_three_zones_amended 2 (permsId 2) (apiFor "us-west-1" zonesW2)
    "us-west-1" { availabilityZones := zonesW2 } rfl (permsId_valid 2)
    (by decide)).1 rfl

/-- Claim C9: for any target of at least 1, the sampling loop of
`randomSelectionOfZones` (which instantiates the target to 2 or 3)
terminates precisely when the available-zone list is non-empty; when it is
non-empty but shorter than the target, the run still exits with a
target-length list that necessarily contains duplicates; pairwise
distinctness is guaranteed once the list is at least target-sized — the
precondition `GetAvailabilityZones` establishes before every call. -/
theorem randomSelection_termination_and_dups (perms : Nat → List Nat)
    (az : List String) (desired : Nat) (hd : 1 ≤ desired)
    (hvp : ValidPerms perms az.length) :
    ((∃ fuel zs, randomSelectionLoop perms az desired fuel 0 [] = some zs) ↔
      az ≠ []) ∧
    (az.length < desired →
      ∀ fuel zs, randomSelectionLoop perms az desired fuel 0 [] = some zs →
        zs.length = desired ∧ ¬ zs.Nodup) ∧
    (desired ≤ az.length → az.Nodup →
      ∀ fuel zs, randomSelectionLoop perms az desired fuel 0 [] = some zs →
        zs.Nodup) := by
  refine ⟨⟨?_, ?_⟩, ?_, ?_⟩
  · rintro ⟨fuel, zs, h⟩ he
    subst he
    have hp : ∀ k, perms k = [] := fun k => List.perm_nil.mp (by simpa using hvp k)
    rw [randomSelectionLoop_none_of_empty perms hp desired hd fuel 0] at h
    simp at h
  · intro hne
    exact ⟨desired + 1, randomSelectionLoop_some_of_ne_nil perms az desired hne
      (fun k => validPerms_length perms az.length hvp k) (desired + 1) 0 []
      (by simp) (by simp)⟩
  · intro hlt fuel zs h
    have hlen := randomSelectionLoop_length perms az desired fuel 0 [] zs
      (by simp) h
    have hmem : ∀ x ∈ zs, x ∈ az := by
      intro x hx
      rcases randomSelectionLoop_mem perms az desired
        (fun k i hi => validPerms_lt perms az.length hvp k i hi) fuel 0 [] zs h x hx
        with h' | h'
      · simp at h'
      · exact h'
    exact ⟨hlen, not_nodup_of_longer zs az hmem (by omega)⟩
  · intro hdn hnodup fuel zs h
    rw [randomSelectionLoop_onepass perms az desired hd hdn
      (validPerms_length perms az.length hvp 0) fuel zs h]
    exact take_map_perm_nodup az (perms 0) desired (hvp 0) hnodup

/-- Witness for C9: one available zone with target 2 — the loop exits, and
a concrete run returns the duplicate-bearing target-length list. -/
theorem randomSelection_termination_and_dups_witness :
    (∃ fuel zs, randomSelectionLoop (permsId 1) ["a"] 2 fuel 0 [] = some zs) ∧
    (["a", "a"] : List String).length = 2 ∧ ¬ (["a", "a"] : List String).Nodup :=
  ⟨(randomSelection_termination_and_dups (permsId 1) ["a"] 2 (by omega)
      (permsId_valid 1)).1.mpr (by decide),
   (randomSelection_termination_and_dups (permsId 1) ["a"] 2 (by omega)
      (permsId_valid 1)).2.1 (by decide) 3 ["a", "a"] rfl⟩
